import Mathlib

/-!
Verification development for the greek_bot quiz engine.

The TypeScript sources are shallowly embedded as Lean definitions:

* pure functions become Lean functions over `Nat`, `List`, `Finset`,
  `Option` and `Except`;
* `Math.random()` draws are threaded as explicit parameters: a raw draw
  value `r` used as `randomInt max = r % max` (for `max > 0` this image
  is exactly the interval `[0, max)` produced by
  `Math.floor(Math.random() * max)`), and a stream `Nat → Nat` of raw
  draw values for the Fisher-Yates shuffle loop;
* stateful game methods become pure functions from an explicit
  environment (the repository lookup result, the loaded term pool, the
  AI generation outcome) to a result record listing the emitted render
  actions, the session-store writes and the metric counters, in program
  order.
-/

namespace GreekBot

/-! ## List swap and the Fisher-Yates shuffle (question-generator.ts)

`QuestionGenerator.shuffle` copies the array and runs the classic
Fisher-Yates loop `for (i = len-1; i > 0; i--) { j = randomInt(i+1);
swap(copy[i], copy[j]) }`.  The swap of two positions is embedded as
`swapIdx`; out-of-range indices leave the list unchanged (the loop only
ever produces in-range indices). -/

def swapIdx (l : List α) (i j : Nat) : List α :=
  match l.get? i, l.get? j with
  | some a, some b => (l.set i b).set j a
  | _, _ => l

/-- One raw draw per loop index: iteration `i` of the source loop uses
`j = randomInt(i+1)`, embedded as `s i % (i+1)`. -/
def fyLoop (s : Nat → Nat) : List α → Nat → List α
  | l, 0 => l
  | l, n + 1 => fyLoop s (swapIdx l (n + 1) (s (n + 1) % (n + 2))) n

def shuffle (s : Nat → Nat) (items : List α) : List α :=
  fyLoop s items (items.length - 1)

theorem count_set_add [DecidableEq α] (l : List α) (i : Nat) (h : i < l.length)
    (b a : α) :
    (l.set i b).count a + (if l[i] = a then 1 else 0)
      = l.count a + (if b = a then 1 else 0) := by
  induction l generalizing i with
  | nil => simp at h
  | cons hd tl ih =>
    cases i with
    | zero =>
      simp only [List.set, List.getElem_cons_zero, List.count_cons, beq_iff_eq]
      split_ifs <;> omega
    | succ n =>
      have hn : n < tl.length := by simpa using h
      have hrec := ih n hn
      simp only [List.set, List.getElem_cons_succ, List.count_cons,
        beq_iff_eq]
      split_ifs at hrec ⊢ <;> omega

theorem count_swapIdx [DecidableEq α] (l : List α) (i j : Nat) (a : α) :
    (swapIdx l i j).count a = l.count a := by
  unfold swapIdx
  cases hi : l.get? i with
  | none => rfl
  | some x =>
    cases hj : l.get? j with
    | none => rfl
    | some y =>
      change ((l.set i y).set j x).count a = l.count a
      obtain ⟨hi', hxg⟩ := List.get?_eq_some.mp hi
      obtain ⟨hj', hyg⟩ := List.get?_eq_some.mp hj
      have hx : l[i] = x := by simpa using hxg
      have hy : l[j] = y := by simpa using hyg
      have hj'' : j < (l.set i y).length := by simpa using hj'
      have h1 := count_set_add (l.set i y) j hj'' x a
      have h2 := count_set_add l i hi' y a
      rw [List.getElem_set hj''] at h1
      rw [hx] at h2
      by_cases hij : i = j
      · subst hij
        rw [if_pos rfl] at h1
        split_ifs at h1 h2 <;> omega
      · rw [if_neg hij, hy] at h1
        split_ifs at h1 h2 <;> omega

theorem swapIdx_perm [DecidableEq α] (l : List α) (i j : Nat) :
    (swapIdx l i j).Perm l := by
  rw [List.perm_iff_count]
  intro a
  exact count_swapIdx l i j a

theorem fyLoop_perm [DecidableEq α] (s : Nat → Nat) (l : List α) (n : Nat) :
    (fyLoop s l n).Perm l := by
  induction n generalizing l with
  | zero => simp [fyLoop]
  | succ m ih =>
    simp only [fyLoop]
    exact (ih _).trans (swapIdx_perm _ _ _)

theorem shuffle_perm [DecidableEq α] (s : Nat → Nat) (l : List α) :
    (shuffle s l).Perm l :=
  fyLoop_perm s l (l.length - 1)

/-! ## Session question (session-question.ts)

`SessionQuestion` carries pool indices for the four displayed options,
the position of the correct one, the Telegram message id of the
dispatched question (absent until the renderer records it), and the
generated-content fields used only by the AI-fact variant. -/

structure SessionQuestion where
  verbId : Nat
  options : List Nat
  correctIndex : Nat
  messageId : Option Nat
  promptText : Option String
  questionText : Option String
  answerOptions : Option (List String)
deriving DecidableEq, Repr

/-! ## Question generator (question-generator.ts)

`QuestionGenerator.createQuestion(terms, remainingIds)` draws the
answer key from the remaining ids, removes it, builds distractors from
all pool indices except the key, shuffles, and records the post-shuffle
position of the key.  The pool appears only through its size
(`terms.length`); the remaining ids are a `HashSet`, embedded as a
`Finset Nat` whose `toCollection` enumeration is its sorted listing
(the enumeration order is irrelevant because the index into it is a
uniform draw, which the raw parameter `pick` ranges over). -/

structure QuestionPack where
  question : SessionQuestion
  remaining : Finset Nat
deriving DecidableEq

def createQuestion (poolSize : Nat) (pick : Nat) (s1 s2 : Nat → Nat)
    (remainingIds : Finset Nat) : Option QuestionPack :=
  if remainingIds = ∅ then none
  else
    let sorted := remainingIds.sort (· ≤ ·)
    let verbId := sorted.getD (pick % remainingIds.card) 0
    let remaining := remainingIds.erase verbId
    let allIds := List.range poolSize
    let distractors := allIds.filter (fun id => id ≠ verbId)
    let selectedDistractors := (shuffle s1 distractors).take 3
    let options := shuffle s2 (verbId :: selectedDistractors)
    let correctIndex := options.indexOf verbId
    some ⟨⟨verbId, options, correctIndex, none, none, none, none⟩, remaining⟩

theorem createQuestion_eq_none_iff (poolSize pick : Nat) (s1 s2 : Nat → Nat)
    (remainingIds : Finset Nat) :
    createQuestion poolSize pick s1 s2 remainingIds = none ↔
      remainingIds = ∅ := by
  unfold createQuestion
  split_ifs with h <;> simp [h]

theorem createQuestion_verbId_mem (poolSize pick : Nat) (s1 s2 : Nat → Nat)
    (remainingIds : Finset Nat) (pack : QuestionPack)
    (h : createQuestion poolSize pick s1 s2 remainingIds = some pack) :
    pack.question.verbId ∈ remainingIds ∧
      pack.remaining = remainingIds.erase pack.question.verbId := by
  unfold createQuestion at h
  split_ifs at h with hne
  simp only [Option.some.injEq] at h
  subst h
  simp only []
  have hcard : 0 < remainingIds.card := by
    rcases Finset.eq_empty_or_nonempty remainingIds with hc | hc
    · exact absurd hc hne
    · exact Finset.card_pos.mpr hc
  have hlen : (remainingIds.sort (· ≤ ·)).length = remainingIds.card :=
    Finset.length_sort _
  have hidx : pick % remainingIds.card < (remainingIds.sort (· ≤ ·)).length := by
    rw [hlen]; exact Nat.mod_lt _ hcard
  rw [List.getD_eq_getElem _ _ hidx]
  exact ⟨(Finset.mem_sort _).mp (List.getElem_mem hidx), trivial⟩

theorem createQuestion_remaining_card (poolSize pick : Nat) (s1 s2 : Nat → Nat)
    (remainingIds : Finset Nat) (pack : QuestionPack)
    (h : createQuestion poolSize pick s1 s2 remainingIds = some pack) :
    pack.remaining.card < remainingIds.card := by
  obtain ⟨hmem, herase⟩ :=
    createQuestion_verbId_mem poolSize pick s1 s2 remainingIds pack h
  rw [herase, Finset.card_erase_of_mem hmem]
  have : 0 < remainingIds.card :=
    Finset.card_pos.mpr ⟨_, hmem⟩
  omega

/-- Repeated sampling until exhaustion, counting the successful draws.
Each round `k` consumes its own raw randomness `picks k`, `s1s k`,
`s2s k`. -/
def sampleRounds (poolSize : Nat) (picks : Nat → Nat)
    (s1s s2s : Nat → Nat → Nat) (k : Nat) (remainingIds : Finset Nat) : Nat :=
  match h : createQuestion poolSize (picks k) (s1s k) (s2s k) remainingIds with
  | none => 0
  | some pack =>
      1 + sampleRounds poolSize picks s1s s2s (k + 1) pack.remaining
termination_by remainingIds.card
decreasing_by
  exact createQuestion_remaining_card _ _ _ _ _ _ h

theorem sampleRounds_eq_card (poolSize : Nat) (picks : Nat → Nat)
    (s1s s2s : Nat → Nat → Nat) (k : Nat) (remainingIds : Finset Nat) :
    sampleRounds poolSize picks s1s s2s k remainingIds = remainingIds.card := by
  have H : ∀ (n : Nat) (r : Finset Nat) (k : Nat), r.card = n →
      sampleRounds poolSize picks s1s s2s k r = r.card := by
    intro n
    induction n using Nat.strong_induction_on with
    | _ n ih =>
      intro r k hrn
      rcases Finset.eq_empty_or_nonempty r with he | he
      · subst he
        rw [sampleRounds]
        rw [(createQuestion_eq_none_iff poolSize (picks k) (s1s k) (s2s k)
          ∅).mpr rfl]
        simp
      · have hne : r ≠ ∅ := Finset.nonempty_iff_ne_empty.mp he
        cases hq : createQuestion poolSize (picks k) (s1s k) (s2s k) r with
        | none =>
          exact absurd ((createQuestion_eq_none_iff _ _ _ _ _).mp hq) hne
        | some pack =>
          obtain ⟨hmem, herase⟩ := createQuestion_verbId_mem _ _ _ _ _ _ hq
          have hcard : pack.remaining.card = r.card - 1 := by
            rw [herase, Finset.card_erase_of_mem hmem]
          have hpos : 0 < r.card := Finset.card_pos.mpr he
          have hrec := ih (pack.remaining.card) (by omega) pack.remaining
            (k + 1) rfl
          rw [sampleRounds]
          split
          · rename_i heq
            rw [hq] at heq
            simp at heq
          · rename_i pack' heq
            rw [hq] at heq
            injection heq with hpp
            subst hpp
            omega
  exact H remainingIds.card remainingIds k rfl

theorem length_filter_ne_of_nodup [DecidableEq α] (l : List α) (v : α)
    (hnd : l.Nodup) (hv : v ∈ l) :
    (l.filter (fun x => x ≠ v)).length = l.length - 1 := by
  induction l with
  | nil => simp at hv
  | cons a l ih =>
    rw [List.nodup_cons] at hnd
    rcases List.mem_cons.mp hv with hva | hvl
    · subst hva
      have hfl : l.filter (fun x => x ≠ v) = l :=
        List.filter_eq_self.mpr (fun b hb => by
          simp only [decide_eq_true_eq]
          intro hbv
          exact hnd.1 (hbv ▸ hb))
      rw [List.filter_cons, if_neg (by simp), hfl, List.length_cons]
      omega
    · have hav : a ≠ v := fun hav => hnd.1 (hav ▸ hvl)
      have hl1 : 1 ≤ l.length := List.length_pos.mpr
        (List.ne_nil_of_mem hvl)
      rw [List.filter_cons]
      simp only [hav, decide_eq_true_eq, if_pos]
      rw [if_pos (by simpa using hav)]
      simp only [List.length_cons]
      rw [ih hnd.2 hvl]
      omega

theorem createQuestion_options_spec (poolSize pick : Nat) (s1 s2 : Nat → Nat)
    (remainingIds : Finset Nat) (pack : QuestionPack)
    (hpool : 4 ≤ poolSize)
    (hsub : remainingIds ⊆ Finset.range poolSize)
    (h : createQuestion poolSize pick s1 s2 remainingIds = some pack) :
    pack.question.options.length = 4 ∧
    pack.question.options.count pack.question.verbId = 1 ∧
    pack.question.options.get? pack.question.correctIndex =
      some pack.question.verbId ∧
    (poolSize = 4 → ∀ id < 4, id ∈ pack.question.options) := by
  obtain ⟨hvmem, _⟩ := createQuestion_verbId_mem poolSize pick s1 s2
    remainingIds pack h
  unfold createQuestion at h
  split_ifs at h with hne
  simp only [Option.some.injEq] at h
  subst h
  simp only [] at hvmem ⊢
  set v := (remainingIds.sort (· ≤ ·)).getD (pick % remainingIds.card) 0
    with hvdef
  have hvlt : v < poolSize := Finset.mem_range.mp (hsub hvmem)
  set D := (List.range poolSize).filter (fun id => id ≠ v) with hDdef
  have hDlen : D.length = poolSize - 1 := by
    rw [hDdef, length_filter_ne_of_nodup _ _ (List.nodup_range _)
      (List.mem_range.mpr hvlt), List.length_range]
  have hD3 : 3 ≤ D.length := by omega
  set sel := (shuffle s1 D).take 3 with hseldef
  have hperm1 : (shuffle s1 D).Perm D := shuffle_perm s1 D
  have hsellen : sel.length = 3 := by
    rw [hseldef, List.length_take, hperm1.length_eq, hDlen]
    omega
  have hselv : v ∉ sel := by
    intro hvin
    have hvD : v ∈ D := hperm1.mem_iff.mp (List.take_subset _ _ hvin)
    have := List.of_mem_filter hvD
    simp at this
  set options := shuffle s2 (v :: sel) with hoptdef
  have hperm2 : options.Perm (v :: sel) := shuffle_perm s2 _
  have hlen : options.length = 4 := by
    rw [hperm2.length_eq, List.length_cons, hsellen]
  have hcount : options.count v = 1 := by
    rw [hperm2.count_eq]
    rw [List.count_cons_self, List.count_eq_zero.mpr hselv]
  have hmem : v ∈ options := by
    rw [hperm2.mem_iff]
    exact List.mem_cons_self _ _
  refine ⟨hlen, hcount, List.indexOf_get? hmem, ?_⟩
  intro hp4 id hid4
  subst hp4
  have hseleq : sel = shuffle s1 D := by
    rw [hseldef]
    exact List.take_of_length_le (by rw [hperm1.length_eq]; omega)
  rw [hperm2.mem_iff]
  rcases eq_or_ne id v with hiv | hiv
  · exact hiv ▸ List.mem_cons_self _ _
  · have hidD : id ∈ D := by
      rw [hDdef, List.mem_filter]
      exact ⟨List.mem_range.mpr hid4, by simpa using hiv⟩
    exact List.mem_cons_of_mem _
      ((hseleq ▸ hperm1.mem_iff.mpr hidD : id ∈ sel))

/-- C1: for every pool of size `poolSize ≥ 4` and every non-empty
`remainingIds ⊆ [0, poolSize)`, `QuestionGenerator.createQuestion`
returns some question whose options list has exactly 4 elements with
exactly one occurrence of the drawn answer key, whose `correctIndex` is
the position of that key in the options, and a remaining set equal to
`remainingIds` minus the answer key; it returns none exactly when
`remainingIds` is empty, so repeated sampling from `k` remaining ids
yields some exactly `k` times before the first none; and when
`poolSize = 4` the options contain all 4 ids. -/
theorem claim_C1_createQuestion (poolSize pick : Nat) (s1 s2 : Nat → Nat)
    (remainingIds : Finset Nat)
    (hpool : 4 ≤ poolSize)
    (hsub : remainingIds ⊆ Finset.range poolSize)
    (hne : remainingIds.Nonempty) :
    (∃ pack, createQuestion poolSize pick s1 s2 remainingIds = some pack ∧
      pack.question.options.length = 4 ∧
      pack.question.options.count pack.question.verbId = 1 ∧
      pack.question.options.get? pack.question.correctIndex =
        some pack.question.verbId ∧
      pack.question.verbId ∈ remainingIds ∧
      pack.remaining = remainingIds.erase pack.question.verbId ∧
      (poolSize = 4 → ∀ id < 4, id ∈ pack.question.options)) ∧
    (∀ r : Finset Nat,
      createQuestion poolSize pick s1 s2 r = none ↔ r = ∅) ∧
    (∀ (picks : Nat → Nat) (s1s s2s : Nat → Nat → Nat) (k : Nat),
      sampleRounds poolSize picks s1s s2s k remainingIds =
        remainingIds.card) := by
  refine ⟨?_, fun r => createQuestion_eq_none_iff poolSize pick s1 s2 r,
    fun picks s1s s2s k => sampleRounds_eq_card poolSize picks s1s s2s k
      remainingIds⟩
  have hnone : createQuestion poolSize pick s1 s2 remainingIds ≠ none := by
    intro hcon
    exact Finset.nonempty_iff_ne_empty.mp hne
      ((createQuestion_eq_none_iff poolSize pick s1 s2 remainingIds).mp hcon)
  cases hq : createQuestion poolSize pick s1 s2 remainingIds with
  | none => exact absurd hq hnone
  | some pack =>
    obtain ⟨hvm, her⟩ := createQuestion_verbId_mem _ _ _ _ _ _ hq
    obtain ⟨h1, h2, h3, h4⟩ :=
      createQuestion_options_spec _ _ _ _ _ _ hpool hsub hq
    exact ⟨pack, rfl, h1, h2, h3, hvm, her, h4⟩

/-- Witness for C1 at the concrete boundary input `poolSize = 4`,
`remainingIds = {0, 1, 2, 3}` and the all-zero random draws. -/
theorem claim_C1_createQuestion_witness :
    (4 ≤ 4 ∧ ({0, 1, 2, 3} : Finset Nat) ⊆ Finset.range 4 ∧
      ({0, 1, 2, 3} : Finset Nat).Nonempty) ∧
    ((∃ pack,
      createQuestion 4 0 (fun _ => 0) (fun _ => 0) {0, 1, 2, 3} =
        some pack ∧
      pack.question.options.length = 4 ∧
      pack.question.options.count pack.question.verbId = 1 ∧
      pack.question.options.get? pack.question.correctIndex =
        some pack.question.verbId ∧
      pack.question.verbId ∈ ({0, 1, 2, 3} : Finset Nat) ∧
      pack.remaining = ({0, 1, 2, 3} : Finset Nat).erase
        pack.question.verbId ∧
      (4 = 4 → ∀ id < 4, id ∈ pack.question.options)) ∧
    (∀ r : Finset Nat,
      createQuestion 4 0 (fun _ => 0) (fun _ => 0) r = none ↔ r = ∅) ∧
    (∀ (picks : Nat → Nat) (s1s s2s : Nat → Nat → Nat) (k : Nat),
      sampleRounds 4 picks s1s s2s k {0, 1, 2, 3} =
        ({0, 1, 2, 3} : Finset Nat).card)) :=
  ⟨⟨by decide, by decide, by decide⟩,
    claim_C1_createQuestion 4 0 (fun _ => 0) (fun _ => 0) {0, 1, 2, 3}
      (by decide) (by decide) (by decide)⟩

/-! ## Free-text answer matching (text-game.ts)

`TextGame` normalizes both sides (trim + lowercase) and applies an
asymmetric accent rule built on `String.prototype.normalize`:
`hasGreekAccent` looks for the combining marks U+0300/U+0301/U+0342/
U+0344/U+0345 in the NFD form, and `removeGreekAccents` strips those
marks from the NFD form and recomposes (NFC).  Unicode normalization
and case mapping are embedded as explicit tables covering the
monotonic Greek block and ASCII, which is the alphabet the game's data
uses; strings are `List Char`. -/

def acuteMark : Char := Char.ofNat 0x301

def dialytikaMark : Char := Char.ofNat 0x308

/-- Canonical decomposition (NFD) of a single character, restricted to
the monotonic Greek block; any other character decomposes to itself. -/
def nfdChar (c : Char) : List Char :=
  let n := c.toNat
  if n = 0x3AC then [Char.ofNat 0x3B1, acuteMark]
  else if n = 0x3AD then [Char.ofNat 0x3B5, acuteMark]
  else if n = 0x3AE then [Char.ofNat 0x3B7, acuteMark]
  else if n = 0x3AF then [Char.ofNat 0x3B9, acuteMark]
  else if n = 0x3CC then [Char.ofNat 0x3BF, acuteMark]
  else if n = 0x3CD then [Char.ofNat 0x3C5, acuteMark]
  else if n = 0x3CE then [Char.ofNat 0x3C9, acuteMark]
  else if n = 0x3CA then [Char.ofNat 0x3B9, dialytikaMark]
  else if n = 0x3CB then [Char.ofNat 0x3C5, dialytikaMark]
  else if n = 0x390 then [Char.ofNat 0x3B9, dialytikaMark, acuteMark]
  else if n = 0x3B0 then [Char.ofNat 0x3C5, dialytikaMark, acuteMark]
  else if n = 0x386 then [Char.ofNat 0x391, acuteMark]
  else if n = 0x388 then [Char.ofNat 0x395, acuteMark]
  else if n = 0x389 then [Char.ofNat 0x397, acuteMark]
  else if n = 0x38A then [Char.ofNat 0x399, acuteMark]
  else if n = 0x38C then [Char.ofNat 0x39F, acuteMark]
  else if n = 0x38E then [Char.ofNat 0x3A5, acuteMark]
  else if n = 0x38F then [Char.ofNat 0x3A9, acuteMark]
  else if n = 0x3AA then [Char.ofNat 0x399, dialytikaMark]
  else if n = 0x3AB then [Char.ofNat 0x3A5, dialytikaMark]
  else [c]

def nfd (s : List Char) : List Char := s.flatMap nfdChar

/-- The combining marks matched by the source regex
`/[̀́͂̈́ͅ]/`. -/
def isGreekMark (c : Char) : Bool :=
  c.toNat = 0x300 ∨ c.toNat = 0x301 ∨ c.toNat = 0x342 ∨
    c.toNat = 0x344 ∨ c.toNat = 0x345

/-- Canonical composition of a base character with one combining mark,
inverse of `nfdChar` on the covered block. -/
def composeChar (a b : Char) : Option Char :=
  let n := a.toNat
  let m := b.toNat
  if m = 0x301 then
    if n = 0x3B1 then some (Char.ofNat 0x3AC)
    else if n = 0x3B5 then some (Char.ofNat 0x3AD)
    else if n = 0x3B7 then some (Char.ofNat 0x3AE)
    else if n = 0x3B9 then some (Char.ofNat 0x3AF)
    else if n = 0x3BF then some (Char.ofNat 0x3CC)
    else if n = 0x3C5 then some (Char.ofNat 0x3CD)
    else if n = 0x3C9 then some (Char.ofNat 0x3CE)
    else if n = 0x3CA then some (Char.ofNat 0x390)
    else if n = 0x3CB then some (Char.ofNat 0x3B0)
    else if n = 0x391 then some (Char.ofNat 0x386)
    else if n = 0x395 then some (Char.ofNat 0x388)
    else if n = 0x397 then some (Char.ofNat 0x389)
    else if n = 0x399 then some (Char.ofNat 0x38A)
    else if n = 0x39F then some (Char.ofNat 0x38C)
    else if n = 0x3A5 then some (Char.ofNat 0x38E)
    else if n = 0x3A9 then some (Char.ofNat 0x38F)
    else none
  else if m = 0x308 then
    if n = 0x3B9 then some (Char.ofNat 0x3CA)
    else if n = 0x3C5 then some (Char.ofNat 0x3CB)
    else if n = 0x399 then some (Char.ofNat 0x3AA)
    else if n = 0x3A5 then some (Char.ofNat 0x3AB)
    else none
  else none

def nfcGo (cur : Char) : List Char → List Char
  | [] => [cur]
  | d :: rest =>
      match composeChar cur d with
      | some e => nfcGo e rest
      | none => cur :: nfcGo d rest

def nfc : List Char → List Char
  | [] => []
  | c :: rest => nfcGo c rest

/-- JavaScript `toLowerCase` restricted to ASCII and the Greek block. -/
def toLowerChar (c : Char) : Char :=
  let n := c.toNat
  if 65 ≤ n ∧ n ≤ 90 then Char.ofNat (n + 32)
  else if 0x391 ≤ n ∧ n ≤ 0x3A9 ∧ n ≠ 0x3A2 then Char.ofNat (n + 32)
  else if n = 0x386 then Char.ofNat 0x3AC
  else if 0x388 ≤ n ∧ n ≤ 0x38A then Char.ofNat (n + 0x25)
  else if n = 0x38C then Char.ofNat 0x3CC
  else if n = 0x38E ∨ n = 0x38F then Char.ofNat (n + 0x3F)
  else if n = 0x3AA ∨ n = 0x3AB then Char.ofNat (n + 0x20)
  else c

def jsWhitespaceChar (c : Char) : Bool :=
  c = ' ' ∨ c = '\t' ∨ c = '\n' ∨ c = '\r'

def jsTrim (s : List Char) : List Char :=
  ((s.dropWhile jsWhitespaceChar).reverse.dropWhile jsWhitespaceChar).reverse

/-- `TextGame.normalizeInput`: `value.trim().toLowerCase()`. -/
def normalizeInput (s : List Char) : List Char :=
  (jsTrim s).map toLowerChar

/-- `TextGame.removeGreekAccents`: NFD, strip the five marks, NFC. -/
def removeGreekAccents (s : List Char) : List Char :=
  nfc ((nfd s).filter (fun c => !isGreekMark c))

/-- `TextGame.hasGreekAccent`: any of the five marks in the NFD form. -/
def hasGreekAccent (s : List Char) : Bool :=
  (nfd s).any isGreekMark

/-- `TextGame.matchesGreekInput`. -/
def matchesGreekInput (input correct : List Char) : Bool :=
  let normalizedInput := normalizeInput input
  let normalizedCorrect := normalizeInput correct
  if !hasGreekAccent normalizedInput then
    removeGreekAccents normalizedInput == removeGreekAccents normalizedCorrect
  else
    normalizedInput == normalizedCorrect

/-- Modelled from the spec: the asymmetric accent rule as §4.3 states
it, namely, if the submitted text carries any diacritic mark, require
exact equality, otherwise compare with diacritics stripped from both
sides.  Used only to compare against `matchesGreekInput`. -/
def accentRuleMatch (input correct : List Char) : Bool :=
  let submitted := normalizeInput input
  let target := normalizeInput correct
  if hasGreekAccent submitted then submitted == target
  else removeGreekAccents submitted == removeGreekAccents target

def alphaTarget : List Char :=
  [Char.ofNat 0x3AC, Char.ofNat 0x3BB, Char.ofNat 0x3C6, Char.ofNat 0x3B1]

def alphaPlain : List Char :=
  [Char.ofNat 0x3B1, Char.ofNat 0x3BB, Char.ofNat 0x3C6, Char.ofNat 0x3B1]

def elphaAccent : List Char :=
  [Char.ofNat 0x3AD, Char.ofNat 0x3BB, Char.ofNat 0x3C6, Char.ofNat 0x3B1]

/-- C2: a submitted free-text answer is judged against the target form
by the asymmetric accent rule (exact equality when the submission
carries a Greek diacritic, accent-stripped equality otherwise), and in
particular for the target "άλφα": "αλφα" matches, "άλφα" matches, and
"έλφα" does not. -/
theorem claim_C2_matchesGreekInput :
    (∀ input correct : List Char,
      matchesGreekInput input correct = accentRuleMatch input correct) ∧
    matchesGreekInput alphaPlain alphaTarget = true ∧
    matchesGreekInput alphaTarget alphaTarget = true ∧
    matchesGreekInput elphaAccent alphaTarget = false := by
  refine ⟨?_, by decide, by decide, by decide⟩
  intro input correct
  unfold matchesGreekInput accentRuleMatch
  cases hacc : hasGreekAccent (normalizeInput input) <;> simp [hacc]

/-! ## Decimal numerals

The storage layer may hand numeric fields back as strings;
`Session.fromJson` coerces them with JavaScript `Number(...)`.  The
embedding models `Number` on canonical decimal numerals (the only
shapes the storage layer produces for numbers); non-numeric strings
produce NaN in JavaScript and are outside this embedding's domain. -/

def digitsRev (n : Nat) : List Nat :=
  if n = 0 then [] else n % 10 :: digitsRev (n / 10)
decreasing_by
  exact Nat.div_lt_self (Nat.pos_of_ne_zero (by assumption)) (by norm_num)

def natDecimal (n : Nat) : List Char :=
  if n = 0 then ['0']
  else (digitsRev n).reverse.map (fun d => Char.ofNat (48 + d))

def decimalToNat (s : List Char) : Nat :=
  s.foldl (fun acc c => acc * 10 + (c.toNat - 48)) 0

theorem toNat_digitChar (d : Nat) (h : d < 10) :
    (Char.ofNat (48 + d)).toNat = 48 + d := by
  interval_cases d <;> decide

theorem digitsRev_lt (n : Nat) : ∀ d ∈ digitsRev n, d < 10 := by
  induction n using Nat.strong_induction_on with
  | _ n ih =>
    intro d hd
    by_cases h0 : n = 0
    · subst h0; rw [digitsRev] at hd; simp at hd
    · rw [digitsRev, if_neg h0] at hd
      rcases List.mem_cons.mp hd with h | h
      · subst h; exact Nat.mod_lt _ (by norm_num)
      · exact ih (n / 10)
          (Nat.div_lt_self (Nat.pos_of_ne_zero h0) (by norm_num)) d h

theorem digitsRev_foldl (n : Nat) : ∀ acc : Nat,
    (digitsRev n).reverse.foldl (fun a d => a * 10 + d) acc =
      acc * 10 ^ (digitsRev n).length + n := by
  induction n using Nat.strong_induction_on with
  | _ n ih =>
    intro acc
    by_cases h0 : n = 0
    · subst h0; rw [digitsRev]; simp
    · rw [digitsRev, if_neg h0]
      have hlt : n / 10 < n :=
        Nat.div_lt_self (Nat.pos_of_ne_zero h0) (by norm_num)
      simp only [List.reverse_cons, List.foldl_append, List.length_cons]
      rw [ih _ hlt acc]
      simp only [List.foldl_cons, List.foldl_nil]
      have hdm : n / 10 * 10 + n % 10 = n := by omega
      calc (acc * 10 ^ (digitsRev (n / 10)).length + n / 10) * 10 + n % 10
          = acc * (10 ^ (digitsRev (n / 10)).length * 10) +
              (n / 10 * 10 + n % 10) := by ring
        _ = acc * 10 ^ ((digitsRev (n / 10)).length + 1) + n := by
              rw [hdm, pow_succ]

theorem foldl_digit_chars (l : List Nat) (hl : ∀ d ∈ l, d < 10) :
    ∀ acc : Nat,
    (l.map (fun d => Char.ofNat (48 + d))).foldl
        (fun acc c => acc * 10 + (c.toNat - 48)) acc =
      l.foldl (fun a d => a * 10 + d) acc := by
  induction l with
  | nil => intro acc; rfl
  | cons d l ih =>
    intro acc
    simp only [List.map_cons, List.foldl_cons]
    rw [toNat_digitChar d (hl d (List.mem_cons_self _ _))]
    rw [ih (fun e he => hl e (List.mem_cons_of_mem _ he))]
    congr 1
    omega

theorem decimalToNat_natDecimal (n : Nat) :
    decimalToNat (natDecimal n) = n := by
  unfold natDecimal decimalToNat
  by_cases h0 : n = 0
  · subst h0; rfl
  · rw [if_neg h0]
    rw [foldl_digit_chars _ (fun d hd =>
      digitsRev_lt n d (List.mem_reverse.mp hd))]
    rw [digitsRev_foldl n 0]
    omega

/-! ## Session storage model (session.ts, session-question.ts)

`Session.item` serializes to a plain storage record; `Session.fromJson`
reconstructs from loosely-typed storage data, coercing numeric fields
with `Number(...)` (embedded by `StoredNum.toNat`).  Storage strings for
numerals are `List Char`. -/

inductive StoredNum where
  | num (n : Nat)
  | str (s : List Char)
deriving DecidableEq, Repr

def StoredNum.toNat : StoredNum → Nat
  | .num n => n
  | .str s => decimalToNat s

/-- Replaces a stored number by its decimal string rendering, the shape
a loosely-typed storage layer may return numeric fields in. -/
def stringifyNum : StoredNum → StoredNum
  | .num n => .str (natDecimal n)
  | .str s => .str s

theorem toNat_stringifyNum (v : StoredNum) :
    (stringifyNum v).toNat = v.toNat := by
  cases v with
  | num n => exact decimalToNat_natDecimal n
  | str s => rfl

inductive TrainingMode where
  | GrRu
  | RuGr
  | Write
  | TextTopic
  | FactQuiz
deriving DecidableEq, Repr

inductive WordCategory where
  | Verbs
  | Nouns
  | Adjectives
  | Adverbs
deriving DecidableEq, Repr

structure SessionQuestionItem where
  verbId : StoredNum
  options : List StoredNum
  correctIndex : StoredNum
  messageId : Option StoredNum
  promptText : Option String
  questionText : Option String
  answerOptions : Option (List String)
deriving DecidableEq, Repr

/-- `SessionQuestion.item`: the plain storage record. -/
def SessionQuestion.item (q : SessionQuestion) : SessionQuestionItem :=
  ⟨.num q.verbId, q.options.map .num, .num q.correctIndex,
    q.messageId.map .num, q.promptText, q.questionText, q.answerOptions⟩

/-- `SessionQuestion.fromJson`: reconstruction with numeric coercion. -/
def SessionQuestion.fromJson (item : SessionQuestionItem) : SessionQuestion :=
  ⟨item.verbId.toNat, item.options.map StoredNum.toNat,
    item.correctIndex.toNat, item.messageId.map StoredNum.toNat,
    item.promptText, item.questionText, item.answerOptions⟩

/-- Modelled from the spec: the `category` and `recentFacts` fields of
the session.  The revision of `session.ts` carrying them is absent from
the sources (only callers reference `session.recentFacts` and the
repository passes a `category`), and §6 lists both among the persisted
session fields; every other field mirrors `src/session.ts`. -/
structure Session where
  sessionId : String
  userId : Nat
  level : String
  mode : TrainingMode
  category : WordCategory
  remainingIds : List Nat
  totalAsked : Nat
  correctCount : Nat
  totalCount : Nat
  current : Option SessionQuestion
  recentFacts : List String
  expiresAt : Nat
  updatedAt : Nat
deriving DecidableEq, Repr

structure SessionItem where
  sessionId : String
  userId : StoredNum
  level : String
  mode : TrainingMode
  category : WordCategory
  remainingIds : List StoredNum
  totalAsked : StoredNum
  correctCount : StoredNum
  totalCount : StoredNum
  current : Option SessionQuestionItem
  recentFacts : List String
  expiresAt : StoredNum
  updatedAt : StoredNum
deriving DecidableEq, Repr

/-- `Session.item`: the plain storage record. -/
def Session.item (s : Session) : SessionItem :=
  ⟨s.sessionId, .num s.userId, s.level, s.mode, s.category,
    s.remainingIds.map .num, .num s.totalAsked, .num s.correctCount,
    .num s.totalCount, s.current.map SessionQuestion.item, s.recentFacts,
    .num s.expiresAt, .num s.updatedAt⟩

/-- `Session.fromJson`: reconstruction with numeric coercion. -/
def Session.fromJson (item : SessionItem) : Session :=
  ⟨item.sessionId, item.userId.toNat, item.level, item.mode, item.category,
    item.remainingIds.map StoredNum.toNat, item.totalAsked.toNat,
    item.correctCount.toNat, item.totalCount.toNat,
    item.current.map SessionQuestion.fromJson, item.recentFacts,
    item.expiresAt.toNat, item.updatedAt.toNat⟩

def SessionQuestionItem.stringifyNums
    (i : SessionQuestionItem) : SessionQuestionItem :=
  ⟨stringifyNum i.verbId, i.options.map stringifyNum,
    stringifyNum i.correctIndex, i.messageId.map stringifyNum,
    i.promptText, i.questionText, i.answerOptions⟩

def SessionItem.stringifyNums (i : SessionItem) : SessionItem :=
  ⟨i.sessionId, stringifyNum i.userId, i.level, i.mode, i.category,
    i.remainingIds.map stringifyNum, stringifyNum i.totalAsked,
    stringifyNum i.correctCount, stringifyNum i.totalCount,
    i.current.map SessionQuestionItem.stringifyNums, i.recentFacts,
    stringifyNum i.expiresAt, stringifyNum i.updatedAt⟩

theorem list_map_toNat_num (l : List Nat) :
    l.map (StoredNum.toNat ∘ StoredNum.num) = l := by
  induction l with
  | nil => rfl
  | cons x l ih => simp [ih, StoredNum.toNat, Function.comp]

theorem option_map_toNat_num (m : Option Nat) :
    m.map (StoredNum.toNat ∘ StoredNum.num) = m := by
  cases m <;> rfl

theorem list_map_toNat_stringify_num (l : List Nat) :
    l.map (StoredNum.toNat ∘ stringifyNum ∘ StoredNum.num) = l := by
  induction l with
  | nil => rfl
  | cons x l ih =>
    simp [ih, StoredNum.toNat, stringifyNum, decimalToNat_natDecimal,
      Function.comp]

theorem option_map_toNat_stringify_num (m : Option Nat) :
    m.map (StoredNum.toNat ∘ stringifyNum ∘ StoredNum.num) = m := by
  cases m with
  | none => rfl
  | some x =>
    simp [StoredNum.toNat, stringifyNum, decimalToNat_natDecimal,
      Function.comp]

theorem sessionQuestion_roundtrip (q : SessionQuestion) :
    SessionQuestion.fromJson (SessionQuestion.item q) = q := by
  cases q with
  | mk v o c m p t a =>
    simp [SessionQuestion.item, SessionQuestion.fromJson, StoredNum.toNat,
      List.map_map, Option.map_map, list_map_toNat_num,
      option_map_toNat_num]

theorem sessionQuestion_roundtrip_str (q : SessionQuestion) :
    SessionQuestion.fromJson ((SessionQuestion.item q).stringifyNums) = q := by
  cases q with
  | mk v o c m p t a =>
    simp [SessionQuestion.item, SessionQuestion.fromJson,
      SessionQuestionItem.stringifyNums, StoredNum.toNat,
      List.map_map, Option.map_map, stringifyNum, decimalToNat_natDecimal,
      list_map_toNat_stringify_num, option_map_toNat_stringify_num]

/-- C5: converting a `Session` to its storage record and reconstructing
it yields an equal `Session`, including the nested `SessionQuestion`
and the recent-facts list; and reconstruction coerces numeric fields
that arrive as decimal strings back to the correct numbers. -/
theorem claim_C5_session_roundtrip :
    (∀ s : Session, Session.fromJson (Session.item s) = s) ∧
    (∀ s : Session,
      Session.fromJson ((Session.item s).stringifyNums) = s) := by
  constructor
  · intro s
    cases s with
    | mk sid uid lv md cat rem ta cc tc cur rf ea ua =>
      cases cur with
      | none =>
        simp [Session.item, Session.fromJson, StoredNum.toNat,
          List.map_map, list_map_toNat_num]
      | some q =>
        simp [Session.item, Session.fromJson, StoredNum.toNat,
          List.map_map, list_map_toNat_num, sessionQuestion_roundtrip]
  · intro s
    cases s with
    | mk sid uid lv md cat rem ta cc tc cur rf ea ua =>
      cases cur with
      | none =>
        simp [Session.item, Session.fromJson, SessionItem.stringifyNums,
          StoredNum.toNat, stringifyNum, decimalToNat_natDecimal,
          List.map_map, list_map_toNat_stringify_num]
      | some q =>
        simp [Session.item, Session.fromJson, SessionItem.stringifyNums,
          StoredNum.toNat, stringifyNum, decimalToNat_natDecimal,
          List.map_map, list_map_toNat_stringify_num,
          sessionQuestion_roundtrip_str]

/-! ## Render actions -/

/-- Modelled from the spec: the render-action tagged union of
`action.ts` is absent from src (only its callers and the e2e tests
remain).  §3 specifies a closed union with kind-specific semantic
payload records; each payload constructor mirrors a
`renderGamePayload` discriminant used by the game variants in src. -/
inductive GamePayload where
  | renderQuestion (chatId currentQuestionIndex totalQuestions : Nat)
      (term : String) (options : List String) (sessionId : String)
  | renderAnswerResult (chatId currentQuestionIndex totalQuestions : Nat)
      (term answerText correctText : String) (isCorrect : Bool)
  | renderSessionEnd (chatId correctCount totalAsked : Nat)
  | renderMissingSession (chatId : Nat)
  | renderInactiveQuestion (chatId : Nat)
  | renderQuestionBuildFailed (chatId : Nat)
  | renderStartMenu (chatId : Nat)
deriving DecidableEq, Repr

/-- Modelled from the spec: the `Action` kinds of §3
(SendMessage, EditMessage, SetKeyboard, AnswerCallback), matching the
constructor calls `Action.sendTgMessage`, `Action.updateLastMessage`
and `Action.answerCallback` used throughout src. -/
inductive Action where
  | sendTgMessage (payload : GamePayload)
  | updateLastMessage (messageId : Nat) (payload : GamePayload)
  | setKeyboard (messageId : Nat)
  | answerCallback (callbackId : String)
deriving DecidableEq, Repr

/-- Whether an action renders a (new) question. -/
def Action.isQuestionRender : Action → Bool
  | .sendTgMessage (.renderQuestion ..) => true
  | .updateLastMessage _ (.renderQuestion ..) => true
  | _ => false

/-- `MenuService.start`: the mode-selection menu as one send action. -/
def menuStart (chatId : Nat) : List Action :=
  [.sendTgMessage (.renderStartMenu chatId)]

/-! ## Base game helpers (base-game.ts) -/

structure Term where
  russian : String
  greek : String
deriving DecidableEq, Repr

/-- `BaseGame.currentQuestionNumber`: 1-based index. -/
def currentQuestionNumber (session : Session) : Nat :=
  session.totalAsked + 1

/-- `BaseGame.totalQuestions`: `session.totalCount ?? ...`; the
fallback is dead code because `totalCount` is always a number. -/
def totalQuestions (session : Session) : Nat :=
  session.totalCount

/-- Modelled from the spec: the Action-returning revision of
`BaseGame.sendQuestion` is absent from src.  Per §4.2 a sampled
question is emitted as one question render action; the payload fields
follow `ChoiceGame.renderGamePayload` and the sibling
`sendFactQuestion`/`sendTopicQuestion` in src, the prompt direction
follows `BaseGame.buildPrompt`, and a session without a current
question yields no actions. -/
def sendQuestion (session : Session) (terms : List Term) : List Action :=
  match session.current with
  | none => []
  | some current =>
      let questionTerm := terms.getD current.verbId ⟨"", ""⟩
      let optionTexts :=
        if session.mode = TrainingMode.RuGr then
          current.options.map (fun id => (terms.getD id ⟨"", ""⟩).greek)
        else
          current.options.map (fun id => (terms.getD id ⟨"", ""⟩).russian)
      let promptTerm :=
        if session.mode = TrainingMode.RuGr ∨
            session.mode = TrainingMode.Write then
          questionTerm.russian
        else questionTerm.greek
      [Action.sendTgMessage (.renderQuestion session.userId
        (currentQuestionNumber session) (totalQuestions session) promptTerm
        optionTexts session.sessionId)]

/-! ## Choice game (choice-game.ts)

`ChoiceGame.invoke` is embedded as a pure function from the
environment (the repository lookup result for the input's session id,
the loaded terms for the session's level and mode, the random draws
for the next `createQuestion` call) to the ordered render actions, the
`putSession` writes and the incremented metric counters.  Out-of-range
list reads (which would throw in JavaScript) are modelled with
defaults; the claims below restrict to in-range inputs. -/

structure ChoiceGameInput where
  chatId : Nat
  messageId : Nat
  callbackId : String
  sessionId : String
  answerIndex : Nat
deriving DecidableEq, Repr

structure ChoiceEnv where
  session : Option Session
  terms : List Term
  pick : Nat
  s1 : Nat → Nat
  s2 : Nat → Nat

structure InvokeResult where
  actions : List Action
  writes : List Session
  metrics : List String
deriving DecidableEq, Repr

/-- The stale-message guard
`current.messageId.exists((id) => id !== input.messageId)`. -/
def staleMessage (current : SessionQuestion) (messageId : Nat) : Bool :=
  current.messageId.elim false (fun id => id != messageId)

/-- `session.copy({totalAsked: ..+1, correctCount: ..+isCorrect})`. -/
def scoredSession (session : Session) (isCorrect : Bool) : Session :=
  { session with
    totalAsked := session.totalAsked + 1
    correctCount := session.correctCount + (if isCorrect then 1 else 0) }

/-- The `resultActions` local of `ChoiceGame.invoke`: the callback
acknowledgement and the answer-result edit of the question message. -/
def choiceResultActions (terms : List Term) (input : ChoiceGameInput)
    (session : Session) (current : SessionQuestion) : List Action :=
  let questionTerm := terms.getD current.verbId ⟨"", ""⟩
  let selectedId := current.options.getD input.answerIndex 0
  let selectedTerm := terms.getD selectedId ⟨"", ""⟩
  let correctTerm := terms.getD (current.options.getD current.correctIndex 0)
    ⟨"", ""⟩
  let selectedText :=
    if session.mode = TrainingMode.RuGr then selectedTerm.greek
    else selectedTerm.russian
  let correctText :=
    if session.mode = TrainingMode.RuGr then correctTerm.greek
    else correctTerm.russian
  let isCorrect := input.answerIndex == current.correctIndex
  let updated := scoredSession session isCorrect
  let promptTerm :=
    if updated.mode = TrainingMode.RuGr ∨
        updated.mode = TrainingMode.Write then
      questionTerm.russian
    else questionTerm.greek
  [Action.answerCallback input.callbackId,
   Action.updateLastMessage input.messageId (.renderAnswerResult input.chatId
     (currentQuestionNumber updated) (totalQuestions updated) promptTerm
     selectedText correctText isCorrect)]

/-- The advanced session written in the sampling-success branch:
`updated.copy({current: some(pack.question), remainingIds:
pack.remaining.toCollection})`. -/
def choiceNextSession (updated : Session) (pack : QuestionPack) : Session :=
  { updated with
    current := some pack.question
    remainingIds := pack.remaining.sort (· ≤ ·) }

/-- `ChoiceGame.invoke`. -/
def choiceInvoke (env : ChoiceEnv) (input : ChoiceGameInput) : InvokeResult :=
  match env.session with
  | none =>
      ⟨[.answerCallback input.callbackId,
        .sendTgMessage (.renderMissingSession input.chatId)], [], []⟩
  | some session =>
    match session.current with
    | none =>
        ⟨[.answerCallback input.callbackId,
          .sendTgMessage (.renderMissingSession input.chatId)], [], []⟩
    | some current =>
      if staleMessage current input.messageId then
        ⟨[.answerCallback input.callbackId,
          .sendTgMessage (.renderInactiveQuestion input.chatId)], [], []⟩
      else
        let isCorrect := input.answerIndex == current.correctIndex
        let updated := scoredSession session isCorrect
        let resultActions := choiceResultActions env.terms input session current
        let answerMetrics := ["QuestionAnswered", "QuestionAnsweredTotal",
          if isCorrect then "QuestionAnsweredCorrect"
          else "QuestionAnsweredWrong"]
        match createQuestion env.terms.length env.pick env.s1 env.s2
            updated.remainingIds.toFinset with
        | none =>
            ⟨resultActions ++
              [.sendTgMessage (.renderSessionEnd input.chatId
                updated.correctCount updated.totalAsked)] ++
              menuStart input.chatId,
             [updated],
             answerMetrics ++ ["SessionEnd", "SessionEndTotal"]⟩
        | some pack =>
            ⟨resultActions ++
              sendQuestion (choiceNextSession updated pack) env.terms,
             [choiceNextSession updated pack], answerMetrics⟩

/-- The `updated` local of `ChoiceGame.invoke`: the session advanced by
scoring the selected answer. -/
def choiceUpdated (input : ChoiceGameInput) (session : Session)
    (current : SessionQuestion) : Session :=
  scoredSession session (input.answerIndex == current.correctIndex)

/-- C3: when the session cannot be loaded or has no current question,
the choice variant emits the callback acknowledgement and a
session-not-found notice and writes nothing to the session store; when
the inbound message id differs from the tracked pending message id, it
emits a question-no-longer-active notice and writes nothing.  An empty
write list models the unchanged stored session. -/
theorem claim_C3_choice_error_branches (env : ChoiceEnv)
    (input : ChoiceGameInput) :
    (env.session = none →
      choiceInvoke env input =
        ⟨[.answerCallback input.callbackId,
          .sendTgMessage (.renderMissingSession input.chatId)], [], []⟩) ∧
    (∀ session, env.session = some session → session.current = none →
      choiceInvoke env input =
        ⟨[.answerCallback input.callbackId,
          .sendTgMessage (.renderMissingSession input.chatId)], [], []⟩) ∧
    (∀ session current m, env.session = some session →
      session.current = some current → current.messageId = some m →
      m ≠ input.messageId →
      choiceInvoke env input =
        ⟨[.answerCallback input.callbackId,
          .sendTgMessage (.renderInactiveQuestion input.chatId)], [], []⟩) := by
  refine ⟨?_, ?_, ?_⟩
  · intro hs
    simp [choiceInvoke, hs]
  · intro session hs hcur
    simp [choiceInvoke, hs, hcur]
  · intro session current m hs hcur hm hne
    have hstale : staleMessage current input.messageId = true := by
      simp [staleMessage, hm, hne]
    simp [choiceInvoke, hs, hcur, hstale]

def sampleChoiceInput : ChoiceGameInput := ⟨1, 2, "cb", "s1", 0⟩

def emptyChoiceEnv : ChoiceEnv := ⟨none, [], 0, fun _ => 0, fun _ => 0⟩

/-- Witness for C3 at a concrete environment with a missing session. -/
theorem claim_C3_choice_error_branches_witness :
    choiceInvoke emptyChoiceEnv sampleChoiceInput =
      ⟨[.answerCallback "cb", .sendTgMessage (.renderMissingSession 1)],
        [], []⟩ :=
  (claim_C3_choice_error_branches emptyChoiceEnv sampleChoiceInput).1 rfl

/-- C4: for a valid answer submission (session loaded, current question
present, message id fresh), if sampling the next question yields none
the variant persists the advanced session and emits, after the
answer-result edit, a session-end summary reporting
`correctCount`/`totalAsked` followed by the mode-selection menu and no
question render action; otherwise it persists the advanced session and
the action list ends with the next question render action. -/
theorem claim_C4_choice_advance (env : ChoiceEnv) (input : ChoiceGameInput)
    (session : Session) (current : SessionQuestion)
    (hs : env.session = some session)
    (hcur : session.current = some current)
    (hfresh : staleMessage current input.messageId = false) :
    (createQuestion env.terms.length env.pick env.s1 env.s2
        (choiceUpdated input session current).remainingIds.toFinset = none →
      (choiceInvoke env input).writes = [choiceUpdated input session current] ∧
      (choiceInvoke env input).actions =
        choiceResultActions env.terms input session current ++
          [.sendTgMessage (.renderSessionEnd input.chatId
            (choiceUpdated input session current).correctCount
            (choiceUpdated input session current).totalAsked)] ++
          menuStart input.chatId ∧
      ∀ a ∈ (choiceInvoke env input).actions, a.isQuestionRender = false) ∧
    (∀ pack, createQuestion env.terms.length env.pick env.s1 env.s2
        (choiceUpdated input session current).remainingIds.toFinset =
          some pack →
      (choiceInvoke env input).writes =
        [choiceNextSession (choiceUpdated input session current) pack] ∧
      (choiceInvoke env input).actions =
        choiceResultActions env.terms input session current ++
          sendQuestion (choiceNextSession (choiceUpdated input session current)
            pack) env.terms ∧
      sendQuestion (choiceNextSession (choiceUpdated input session current)
        pack) env.terms ≠ [] ∧
      ∀ a ∈ sendQuestion (choiceNextSession (choiceUpdated input session
        current) pack) env.terms, a.isQuestionRender = true) := by
  constructor
  · intro hq
    have hinv : choiceInvoke env input =
        ⟨choiceResultActions env.terms input session current ++
          [.sendTgMessage (.renderSessionEnd input.chatId
            (choiceUpdated input session current).correctCount
            (choiceUpdated input session current).totalAsked)] ++
          menuStart input.chatId,
         [choiceUpdated input session current],
         ["QuestionAnswered", "QuestionAnsweredTotal",
          if input.answerIndex == current.correctIndex then
            "QuestionAnsweredCorrect" else "QuestionAnsweredWrong"] ++
          ["SessionEnd", "SessionEndTotal"]⟩ := by
      unfold choiceUpdated at hq
      simp only [choiceInvoke, hs, hcur, hfresh, Bool.false_eq_true,
        if_false, hq]
      rfl
    rw [hinv]
    refine ⟨rfl, rfl, ?_⟩
    intro a ha
    simp only [choiceResultActions, menuStart, List.mem_append,
      List.mem_cons, List.mem_singleton, List.not_mem_nil, or_false] at ha
    rcases ha with ((h | h) | h) | h <;> subst h <;> rfl
  · intro pack hq
    have hinv : choiceInvoke env input =
        ⟨choiceResultActions env.terms input session current ++
          sendQuestion (choiceNextSession (choiceUpdated input session current)
            pack) env.terms,
         [choiceNextSession (choiceUpdated input session current) pack],
         ["QuestionAnswered", "QuestionAnsweredTotal",
          if input.answerIndex == current.correctIndex then
            "QuestionAnsweredCorrect" else "QuestionAnsweredWrong"]⟩ := by
      unfold choiceUpdated at hq
      simp only [choiceInvoke, hs, hcur, hfresh, Bool.false_eq_true,
        if_false, hq]
      rfl
    rw [hinv]
    have hsend : sendQuestion (choiceNextSession (choiceUpdated input session
        current) pack) env.terms =
        [Action.sendTgMessage (.renderQuestion
          (choiceNextSession (choiceUpdated input session current)
            pack).userId
          (currentQuestionNumber (choiceNextSession (choiceUpdated input
            session current) pack))
          (totalQuestions (choiceNextSession (choiceUpdated input session
            current) pack))
          (if (choiceNextSession (choiceUpdated input session current)
              pack).mode = TrainingMode.RuGr ∨
              (choiceNextSession (choiceUpdated input session current)
                pack).mode = TrainingMode.Write then
            (env.terms.getD pack.question.verbId ⟨"", ""⟩).russian
          else (env.terms.getD pack.question.verbId ⟨"", ""⟩).greek)
          (if (choiceNextSession (choiceUpdated input session current)
              pack).mode = TrainingMode.RuGr then
            pack.question.options.map
              (fun id => (env.terms.getD id ⟨"", ""⟩).greek)
          else pack.question.options.map
              (fun id => (env.terms.getD id ⟨"", ""⟩).russian))
          (choiceNextSession (choiceUpdated input session current)
            pack).sessionId)] := by
      simp only [sendQuestion, choiceNextSession]
    refine ⟨rfl, rfl, ?_, ?_⟩
    · rw [hsend]; simp
    · intro a ha
      rw [hsend] at ha
      simp only [List.mem_singleton] at ha
      subst ha
      rfl

def sampleQuestion : SessionQuestion := ⟨0, [0, 1, 2, 3], 1, none, none,
  none, none⟩

def sampleSession : Session := ⟨"s1", 1, "a1", .GrRu, .Verbs, [], 3, 2, 4,
  some sampleQuestion, [], 0, 0⟩

def sampleChoiceEnv : ChoiceEnv := ⟨some sampleSession, [], 0, fun _ => 0,
  fun _ => 0⟩

/-- Witness for C4: after the last answer (no ids left to sample) the
invoke persists the scored session and emits no question render
action. -/
theorem claim_C4_choice_advance_witness :
    (choiceInvoke sampleChoiceEnv sampleChoiceInput).writes =
      [choiceUpdated sampleChoiceInput sampleSession sampleQuestion] ∧
    ∀ a ∈ (choiceInvoke sampleChoiceEnv sampleChoiceInput).actions,
      a.isQuestionRender = false := by
  have h := (claim_C4_choice_advance sampleChoiceEnv sampleChoiceInput
    sampleSession sampleQuestion rfl rfl (by decide)).1 (by decide)
  exact ⟨h.1, h.2.2⟩

/-! ## AI fact question service (fact-question-service.ts)

`FactQuestionService.generate` requests a completion, extracts a JSON
value from the raw content (`parseQuestion`), normalizes its fields
(`normalizeQuestion`) and validates them (`validateQuestion`),
throwing on any failure.  The HTTP call and the textual JSON
extraction are abstracted: the embedding takes the extraction outcome
(`none` = `parseQuestion` threw, `some v` = the parsed value) as its
parameter.  JSON numbers are modelled as integers; fractional literals
are outside this embedding's domain. -/

inductive JsonVal where
  | null
  | bool (b : Bool)
  | num (n : Int)
  | str (s : String)
  | arr (items : List JsonVal)
  | obj (fields : List (String × JsonVal))

/-- Property lookup on a parsed JSON value; `none` models
`undefined`. -/
def jsGet : JsonVal → String → Option JsonVal
  | .obj fields, k => (fields.find? (fun f => f.1 == k)).map Prod.snd
  | _, _ => none

/-- JavaScript `String(...)` on parsed JSON values. -/
def jsString : JsonVal → String
  | .str s => s
  | .num n => toString n
  | .bool b => if b then "true" else "false"
  | .null => "null"
  | .arr items =>
      String.intercalate "," (items.attach.map (fun x => jsString x.1))
  | .obj _ => "[object Object]"
decreasing_by
  have hsz := List.sizeOf_lt_of_mem x.2
  simp only [JsonVal.arr.sizeOf_spec]
  omega

def jsTrimStr (s : String) : String :=
  (jsTrim s.data).asString

/-- JavaScript `Number(...)` on parsed JSON values; `none` models NaN.
Strings are handled on integer numerals only (the storage/provider
shapes of this code base). -/
def jsToNumber : JsonVal → Option Int
  | .num n => some n
  | .null => some 0
  | .bool b => some (if b then 1 else 0)
  | .str s =>
      let t := jsTrim s.data
      if t.isEmpty then some 0
      else if t.all (fun c => 48 ≤ c.toNat ∧ c.toNat ≤ 57) then
        some (decimalToNat t)
      else
        match t with
        | '-' :: rest =>
            if !rest.isEmpty ∧
                rest.all (fun c => 48 ≤ c.toNat ∧ c.toNat ≤ 57) then
              some (-(decimalToNat rest : Int))
            else none
        | _ => none
  | _ => none

structure FactQuestion where
  fact : String
  question : String
  options : List String
  correctIndex : Option Int
deriving DecidableEq, Repr

/-- `String(question.<k> ?? "").trim()`. -/
def jsFieldString (v : JsonVal) (k : String) : String :=
  match jsGet v k with
  | none => ""
  | some .null => ""
  | some w => jsTrimStr (jsString w)

/-- `Array.isArray(question.options) ? options.map(String(..).trim())
: []`. -/
def jsFieldOptions (v : JsonVal) : List String :=
  match jsGet v "options" with
  | some (.arr items) => items.map (fun item => jsTrimStr (jsString item))
  | _ => []

/-- `Number(question.correctIndex)`. -/
def jsFieldNumber (v : JsonVal) : Option Int :=
  match jsGet v "correctIndex" with
  | none => none
  | some w => jsToNumber w

/-- `FactQuestionService.normalizeQuestion`. -/
def normalizeQuestion (v : JsonVal) : FactQuestion :=
  ⟨jsFieldString v "fact", jsFieldString v "question", jsFieldOptions v,
    jsFieldNumber v⟩

/-- `FactQuestionService.countWords`:
`value.trim().split(/\s+/).filter(Boolean).length`. -/
def countWords (value : String) : Nat :=
  (((jsTrim value.data).splitOnP jsWhitespaceChar).filter
    (fun l => !l.isEmpty)).length

/-- `Number.isInteger(ci) && 0 <= ci && ci <= 3` on the NaN-aware
number model. -/
def validCorrectIndex : Option Int → Bool
  | some n => decide (0 ≤ n ∧ n ≤ 3)
  | none => false

/-- `FactQuestionService.validateQuestion`; errors model throws. -/
def validateQuestion (q : FactQuestion) : Except String Unit :=
  if q.fact = "" ∨ q.question = "" ∨ q.options.length ≠ 4 then
    .error "AI response has invalid structure"
  else if !validCorrectIndex q.correctIndex then
    .error "AI response has invalid correct index"
  else if 80 < countWords q.fact then
    .error "AI response exceeds 80 words"
  else if q.options.any (fun item => item = "") then
    .error "AI response has empty options"
  else .ok ()

/-- `FactQuestionService.generate` downstream of the HTTP call. -/
def generateFromParsed (parsed : Option JsonVal) :
    Except String FactQuestion :=
  match parsed with
  | none => .error "AI response is not JSON"
  | some v =>
      let normalized := normalizeQuestion v
      match validateQuestion normalized with
      | .error e => .error e
      | .ok _ => .ok normalized

/-- The success conditions as the spec states them, on the normalized
record: non-empty fact of at most 80 words, non-empty question,
exactly 4 options, all non-empty, integer correctIndex in [0,3]. -/
def validFactRecord (q : FactQuestion) : Bool :=
  decide (q.fact ≠ "") && decide (countWords q.fact ≤ 80) &&
    decide (q.question ≠ "") && decide (q.options.length = 4) &&
    q.options.all (fun o => decide (o ≠ "")) &&
    validCorrectIndex q.correctIndex

def validFactResponse (v : JsonVal) : Bool :=
  validFactRecord (normalizeQuestion v)

theorem validateQuestion_ok_iff (q : FactQuestion) :
    validateQuestion q = .ok () ↔ validFactRecord q = true := by
  constructor
  · intro h
    unfold validateQuestion at h
    by_cases h1 : q.fact = "" ∨ q.question = "" ∨ q.options.length ≠ 4
    · rw [if_pos h1] at h; exact absurd h (by simp)
    rw [if_neg h1] at h
    by_cases h2 : (!validCorrectIndex q.correctIndex) = true
    · rw [if_pos h2] at h; exact absurd h (by simp)
    rw [if_neg h2] at h
    by_cases h3 : 80 < countWords q.fact
    · rw [if_pos h3] at h; exact absurd h (by simp)
    rw [if_neg h3] at h
    by_cases h4 : (q.options.any fun item => decide (item = "")) = true
    · rw [if_pos h4] at h; exact absurd h (by simp)
    push_neg at h1
    obtain ⟨hf, hqn, hlen⟩ := h1
    have h2' : validCorrectIndex q.correctIndex = true := by
      cases hvc : validCorrectIndex q.correctIndex
      · exact absurd (by rw [hvc]; rfl) h2
      · rfl
    unfold validFactRecord
    simp only [Bool.and_eq_true, decide_eq_true_eq, List.all_eq_true]
    refine ⟨⟨⟨⟨⟨hf, by omega⟩, hqn⟩, hlen⟩, ?_⟩, h2'⟩
    intro o ho hoe
    exact h4 (List.any_eq_true.mpr ⟨o, ho, by simp [hoe]⟩)
  · intro h
    unfold validFactRecord at h
    simp only [Bool.and_eq_true, decide_eq_true_eq, List.all_eq_true] at h
    obtain ⟨⟨⟨⟨⟨hf, hw⟩, hqn⟩, hlen⟩, hopts⟩, hci⟩ := h
    have hany : ¬(q.options.any fun item => decide (item = "")) = true := by
      intro hcon
      obtain ⟨o, ho, hoe⟩ := List.any_eq_true.mp hcon
      exact (hopts o ho) (by simpa using hoe)
    unfold validateQuestion
    rw [if_neg (by push_neg; exact ⟨hf, hqn, hlen⟩)]
    rw [if_neg (by simp [hci])]
    rw [if_neg (by omega)]
    rw [if_neg hany]

theorem generateFromParsed_some (v : JsonVal) :
    generateFromParsed (some v) =
      match validateQuestion (normalizeQuestion v) with
      | .error e => .error e
      | .ok _ => .ok (normalizeQuestion v) := rfl

/-- C6: `FactQuestionService.generate` succeeds exactly when the
content parses as JSON into a record that normalizes to a non-empty
fact of at most 80 words, a non-empty question, exactly 4 non-empty
options and an integer correctIndex in [0,3]; every violation raises a
generation failure instead of returning a question. -/
theorem claim_C6_generate (parsed : Option JsonVal) :
    ((∃ q, generateFromParsed parsed = .ok q) ↔
      (∃ v, parsed = some v ∧ validFactResponse v = true)) ∧
    (∀ v, parsed = some v → validFactResponse v = false →
      ∃ e, generateFromParsed parsed = .error e) ∧
    (parsed = none → ∃ e, generateFromParsed parsed = .error e) := by
  refine ⟨?_, ?_, ?_⟩
  · cases parsed with
    | none =>
      constructor
      · rintro ⟨q, hq⟩
        exact absurd hq (by simp [generateFromParsed])
      · rintro ⟨v, hv, _⟩
        exact absurd hv (by simp)
    | some v =>
      rw [generateFromParsed_some]
      constructor
      · rintro ⟨q, hq⟩
        refine ⟨v, rfl, ?_⟩
        rcases hval : validateQuestion (normalizeQuestion v) with e | u
        · rw [hval] at hq; simp at hq
        · cases u
          exact (validateQuestion_ok_iff _).mp hval
      · rintro ⟨w, hw, hvalid⟩
        obtain rfl : v = w := by injection hw
        refine ⟨normalizeQuestion v, ?_⟩
        rw [(validateQuestion_ok_iff _).mpr hvalid]
  · intro v hv hinvalid
    subst hv
    rw [generateFromParsed_some]
    rcases hval : validateQuestion (normalizeQuestion v) with e | u
    · exact ⟨e, rfl⟩
    · cases u
      unfold validFactResponse at hinvalid
      rw [(validateQuestion_ok_iff _).mp hval] at hinvalid
      exact absurd hinvalid (by simp)
  · intro h
    subst h
    exact ⟨"AI response is not JSON", rfl⟩

def sampleFactJson : JsonVal := .obj
  [("fact", .str "Athens is the capital of Greece"),
   ("question", .str "What is Athens"),
   ("options", .arr [.str "a city", .str "a mountain", .str "a river",
     .str "an island"]),
   ("correctIndex", .num 0)]

theorem sampleFactJson_valid : validFactResponse sampleFactJson = true := by
  simp only [validFactResponse, validFactRecord, normalizeQuestion,
    jsFieldString, jsFieldOptions, jsFieldNumber, jsGet, sampleFactJson]
  simp [jsString, List.find?]
  decide

/-- Witness for C6 at a concrete well-formed provider response. -/
theorem claim_C6_generate_witness :
    ∃ q, generateFromParsed (some sampleFactJson) = .ok q :=
  (claim_C6_generate (some sampleFactJson)).1.mpr
    ⟨sampleFactJson, rfl, sampleFactJson_valid⟩

/-! ## AI-fact quiz game (fact-quiz-game-input.ts)

`FactQuizGame.invoke` is embedded like `ChoiceGame.invoke`; the AI
generator call is a single `Except` outcome parameter (`error` models
a thrown provider error, timeout or validation failure), and the
result additionally counts how many times the generator was called. -/

def MAX_RECENT_FACTS : Nat := 20

/-- JavaScript `array.slice(-n)`: the last `n` elements. -/
def jsSliceLast (n : Nat) (l : List α) : List α :=
  l.drop (l.length - n)

/-- `FactQuizGame.appendRecentFact`: append, keep the last 20. -/
def appendRecentFact (recentFacts : List String) (fact : String) :
    List String :=
  jsSliceLast MAX_RECENT_FACTS (recentFacts ++ [fact])

/-- `FactQuizGame.buildQuestionText`: the fact and the question joined
by a blank line, or `""` when either is blank. -/
def buildQuestionText (question : SessionQuestion) : String :=
  let fact := jsTrimStr (question.promptText.getD "")
  let q := jsTrimStr (question.questionText.getD "")
  if fact = "" ∨ q = "" then "" else fact ++ "\n\n" ++ q

structure FactQuizGameInput where
  chatId : Nat
  messageId : Nat
  callbackId : String
  sessionId : String
  answerIndex : Nat
deriving DecidableEq, Repr

structure BuildResult where
  next : Option Session
  metrics : List String
  genCalls : Nat
deriving DecidableEq, Repr

/-- `FactQuizGame.buildNextQuestion`: none when no topic ids remain;
otherwise draw a topic, call the generator once (`genCalls = 1`); a
thrown generation failure is caught, recorded as the
`QuestionBuildFailed` build-failure observation, and yields none; on
success store the generated question and the bounded recent-facts
list. -/
def buildNextQuestion (gen : Except String FactQuestion) (pick : Nat)
    (session : Session) : BuildResult :=
  if session.remainingIds.isEmpty then ⟨none, [], 0⟩
  else
    let remaining := session.remainingIds
    let topicId := remaining.getD (pick % remaining.length) 0
    let nextRemaining := remaining.filter (fun id => id ≠ topicId)
    match gen with
    | .error _ =>
        ⟨none, ["QuestionBuildFailed", "QuestionBuildFailedTotal"], 1⟩
    | .ok question =>
        let updatedFacts := appendRecentFact session.recentFacts
          question.fact
        let sessionQuestion : SessionQuestion :=
          ⟨topicId, [0, 1, 2, 3], (question.correctIndex.getD 0).toNat,
            none, some question.fact, some question.question,
            some question.options⟩
        ⟨some { session with
            current := some sessionQuestion
            remainingIds := nextRemaining
            recentFacts := updatedFacts },
          [], 1⟩

/-- `FactQuizGame.sendFactQuestion`. -/
def sendFactQuestion (session : Session) : List Action :=
  match session.current with
  | none => []
  | some current =>
      let questionText := buildQuestionText current
      let options := current.answerOptions.getD []
      if questionText = "" ∨ options.length ≠ 4 then
        [.sendTgMessage (.renderQuestionBuildFailed session.userId)]
      else
        [.sendTgMessage (.renderQuestion session.userId
          (currentQuestionNumber session) (totalQuestions session)
          questionText options session.sessionId)]

structure FactEnv where
  session : Option Session
  gen : Except String FactQuestion
  pick : Nat

structure FactInvokeResult where
  actions : List Action
  writes : List Session
  metrics : List String
  genCalls : Nat
deriving DecidableEq, Repr

/-- The `resultActions` local of `FactQuizGame.invoke`; the question
numbers use the pre-update session, as the source does. -/
def factResultActions (input : FactQuizGameInput) (session : Session)
    (current : SessionQuestion) : List Action :=
  let questionText := buildQuestionText current
  let options := current.answerOptions.getD []
  let isCorrect := input.answerIndex == current.correctIndex
  [.answerCallback input.callbackId,
   .updateLastMessage input.messageId (.renderAnswerResult input.chatId
     (currentQuestionNumber session) (totalQuestions session) questionText
     (options.getD input.answerIndex "")
     (options.getD current.correctIndex "") isCorrect)]

/-- `FactQuizGame.invoke`. -/
def factInvoke (env : FactEnv) (input : FactQuizGameInput) :
    FactInvokeResult :=
  match env.session with
  | none =>
      ⟨[.answerCallback input.callbackId,
        .sendTgMessage (.renderMissingSession input.chatId)], [], [], 0⟩
  | some session =>
    match session.current with
    | none =>
        ⟨[.answerCallback input.callbackId,
          .sendTgMessage (.renderMissingSession input.chatId)], [], [], 0⟩
    | some current =>
      if staleMessage current input.messageId then
        ⟨[.answerCallback input.callbackId,
          .sendTgMessage (.renderInactiveQuestion input.chatId)], [], [], 0⟩
      else
        let questionText := buildQuestionText current
        let options := current.answerOptions.getD []
        if questionText = "" ∨ options.length ≠ 4 then
          ⟨[.answerCallback input.callbackId,
            .sendTgMessage (.renderQuestionBuildFailed input.chatId)],
            [], [], 0⟩
        else if options.length ≤ input.answerIndex then
          ⟨[.answerCallback input.callbackId,
            .sendTgMessage (.renderQuestionBuildFailed input.chatId)],
            [], [], 0⟩
        else
          let isCorrect := input.answerIndex == current.correctIndex
          let updated := scoredSession session isCorrect
          let resultActions := factResultActions input session current
          let answerMetrics := ["QuestionAnswered", "QuestionAnsweredTotal",
            if isCorrect then "QuestionAnsweredCorrect"
            else "QuestionAnsweredWrong"]
          let build := buildNextQuestion env.gen env.pick updated
          match build.next with
          | none =>
              ⟨resultActions ++
                [.sendTgMessage (.renderSessionEnd input.chatId
                  updated.correctCount updated.totalAsked)] ++
                menuStart input.chatId,
               [updated],
               answerMetrics ++ build.metrics ++
                 ["SessionEnd", "SessionEndTotal"],
               build.genCalls⟩
          | some nextSession =>
              ⟨resultActions ++ sendFactQuestion nextSession,
               [nextSession],
               answerMetrics ++ build.metrics,
               build.genCalls⟩

theorem buildNextQuestion_genCalls_le (gen : Except String FactQuestion)
    (pick : Nat) (session : Session) :
    (buildNextQuestion gen pick session).genCalls ≤ 1 := by
  unfold buildNextQuestion
  split_ifs
  · simp
  · cases gen <;> simp

theorem factInvoke_genCalls_le_one (env : FactEnv)
    (input : FactQuizGameInput) :
    (factInvoke env input).genCalls ≤ 1 := by
  rcases hs : env.session with _ | session
  · simp [factInvoke, hs]
  rcases hc : session.current with _ | current
  · simp [factInvoke, hs, hc]
  by_cases hst : staleMessage current input.messageId = true
  · simp [factInvoke, hs, hc, hst]
  by_cases hq : buildQuestionText current = "" ∨
      (current.answerOptions.getD []).length ≠ 4
  · simp only [factInvoke, hs, hc]
    rw [if_neg hst, if_pos hq]
    simp
  by_cases hidx : (current.answerOptions.getD []).length ≤ input.answerIndex
  · simp only [factInvoke, hs, hc]
    rw [if_neg hst, if_neg hq, if_pos hidx]
    simp
  simp only [factInvoke, hs, hc]
  rw [if_neg hst, if_neg hq, if_neg hidx]
  rcases hb : (buildNextQuestion env.gen env.pick (scoredSession
      session (input.answerIndex == current.correctIndex))).next with _ | ns
  · simp only [hb]
    exact buildNextQuestion_genCalls_le _ _ _
  · simp only [hb]
    exact buildNextQuestion_genCalls_le _ _ _

/-- C7: when generation fails for a step (provider error, timeout or
schema violation, all modelled as a thrown generation failure), the
game records the `QuestionBuildFailed` build-failure observation,
calls the generator exactly once for the step (and never more than
once on any invocation), and the session ends for that step: no
emitted action renders a new question. -/
theorem claim_C7_generation_failure (env : FactEnv)
    (input : FactQuizGameInput) (session : Session)
    (current : SessionQuestion) (e : String)
    (hs : env.session = some session)
    (hcur : session.current = some current)
    (hfresh : staleMessage current input.messageId = false)
    (hq : buildQuestionText current ≠ "")
    (hopts : (current.answerOptions.getD []).length = 4)
    (hidx : input.answerIndex < (current.answerOptions.getD []).length)
    (hgen : env.gen = .error e)
    (hrem : session.remainingIds ≠ []) :
    "QuestionBuildFailed" ∈ (factInvoke env input).metrics ∧
    (factInvoke env input).genCalls = 1 ∧
    (∀ a ∈ (factInvoke env input).actions, a.isQuestionRender = false) ∧
    (∀ (env' : FactEnv) (input' : FactQuizGameInput),
      (factInvoke env' input').genCalls ≤ 1) := by
  have hne : ¬((scoredSession session
      (input.answerIndex == current.correctIndex)).remainingIds.isEmpty =
        true) := by
    simp only [scoredSession, List.isEmpty_iff]
    exact hrem
  have hb : buildNextQuestion env.gen env.pick
      (scoredSession session (input.answerIndex == current.correctIndex)) =
      ⟨none, ["QuestionBuildFailed", "QuestionBuildFailedTotal"], 1⟩ := by
    unfold buildNextQuestion
    rw [if_neg hne, hgen]
  have hmain : factInvoke env input =
      ⟨factResultActions input session current ++
        [.sendTgMessage (.renderSessionEnd input.chatId
          (scoredSession session
            (input.answerIndex == current.correctIndex)).correctCount
          (scoredSession session
            (input.answerIndex == current.correctIndex)).totalAsked)] ++
        menuStart input.chatId,
       [scoredSession session (input.answerIndex == current.correctIndex)],
       ["QuestionAnswered", "QuestionAnsweredTotal",
        if (input.answerIndex == current.correctIndex) = true then
          "QuestionAnsweredCorrect" else "QuestionAnsweredWrong"] ++
        ["QuestionBuildFailed", "QuestionBuildFailedTotal"] ++
        ["SessionEnd", "SessionEndTotal"],
       1⟩ := by
    simp only [factInvoke, hs, hcur, hfresh, Bool.false_eq_true, if_false]
    rw [if_neg (by push_neg; exact ⟨hq, by omega⟩)]
    rw [if_neg (by omega)]
    simp only [hb]
  refine ⟨?_, ?_, ?_, fun env' input' =>
    factInvoke_genCalls_le_one env' input'⟩
  · rw [hmain]; simp
  · rw [hmain]
  · rw [hmain]
    intro a ha
    simp only [factResultActions, menuStart, List.mem_append,
      List.mem_cons, List.mem_singleton, List.not_mem_nil, or_false] at ha
    rcases ha with ((h | h) | h) | h <;> subst h <;> rfl

def sampleFactQuestionRow : SessionQuestion := ⟨0, [0, 1, 2, 3], 1, none,
  some "fact text", some "question text", some ["a", "b", "c", "d"]⟩

def sampleFactSession : Session := ⟨"s2", 1, "a1", .FactQuiz, .Verbs, [0],
  0, 0, 1, some sampleFactQuestionRow, [], 0, 0⟩

def sampleFactEnv : FactEnv := ⟨some sampleFactSession, .error "boom", 0⟩

def sampleFactInput : FactQuizGameInput := ⟨1, 2, "cb2", "s2", 0⟩

/-- Witness for C7 at a concrete failing generation. -/
theorem claim_C7_generation_failure_witness :
    "QuestionBuildFailed" ∈
      (factInvoke sampleFactEnv sampleFactInput).metrics ∧
    (factInvoke sampleFactEnv sampleFactInput).genCalls = 1 := by
  have h := claim_C7_generation_failure sampleFactEnv sampleFactInput
    sampleFactSession sampleFactQuestionRow "boom" rfl rfl (by decide)
    (by decide) (by decide) (by decide) rfl (by decide)
  exact ⟨h.1, h.2.1⟩

/-- C8: the recent-facts list is an append-at-the-end, keep-the-most-
recent-20 buffer, so its length never exceeds 20: `appendRecentFact`
drops exactly the oldest entries beyond 20, leaves short lists intact,
and every session written by a fact-quiz invocation keeps the bound
when the loaded session satisfied it. -/
theorem claim_C8_recent_facts_bound :
    (∀ (recentFacts : List String) (fact : String),
      appendRecentFact recentFacts fact =
        recentFacts.drop (recentFacts.length + 1 - MAX_RECENT_FACTS) ++
          [fact] ∧
      (appendRecentFact recentFacts fact).length ≤ 20 ∧
      (recentFacts.length ≤ 19 →
        appendRecentFact recentFacts fact = recentFacts ++ [fact])) ∧
    (∀ (env : FactEnv) (input : FactQuizGameInput) (s0 : Session),
      env.session = some s0 → s0.recentFacts.length ≤ 20 →
      ∀ s' ∈ (factInvoke env input).writes,
        s'.recentFacts.length ≤ 20) := by
  have happend : ∀ (recentFacts : List String) (fact : String),
      appendRecentFact recentFacts fact =
        recentFacts.drop (recentFacts.length + 1 - MAX_RECENT_FACTS) ++
          [fact] := by
    intro recentFacts fact
    unfold appendRecentFact jsSliceLast
    rw [List.length_append]
    simp only [List.length_singleton]
    exact List.drop_append_of_le_length (by unfold MAX_RECENT_FACTS; omega)
  have hlen : ∀ (recentFacts : List String) (fact : String),
      (appendRecentFact recentFacts fact).length ≤ 20 := by
    intro recentFacts fact
    rw [happend recentFacts fact, List.length_append, List.length_drop]
    simp only [List.length_singleton]
    unfold MAX_RECENT_FACTS
    omega
  refine ⟨fun recentFacts fact => ⟨happend recentFacts fact,
    hlen recentFacts fact, ?_⟩, ?_⟩
  · intro hshort
    rw [happend recentFacts fact]
    have : recentFacts.length + 1 - MAX_RECENT_FACTS = 0 := by
      unfold MAX_RECENT_FACTS; omega
    rw [this, List.drop_zero]
  · intro env input s0 hs hbound s' hw
    simp only [factInvoke, hs] at hw
    cases hcur : s0.current with
    | none => simp only [hcur] at hw; simp at hw
    | some current =>
      simp only [hcur] at hw
      by_cases hst : staleMessage current input.messageId = true
      · rw [if_pos hst] at hw; simp at hw
      · rw [if_neg hst] at hw
        by_cases hq : buildQuestionText current = "" ∨
            (current.answerOptions.getD []).length ≠ 4
        · rw [if_pos hq] at hw; simp at hw
        · rw [if_neg hq] at hw
          by_cases hidx : (current.answerOptions.getD []).length ≤
              input.answerIndex
          · rw [if_pos hidx] at hw; simp at hw
          · rw [if_neg hidx] at hw
            rcases hb : (buildNextQuestion env.gen env.pick (scoredSession
                s0 (input.answerIndex == current.correctIndex))).next with
              _ | ns
            · simp only [hb] at hw
              simp only [List.mem_singleton] at hw
              subst hw
              simpa [scoredSession] using hbound
            · simp only [hb] at hw
              simp only [List.mem_singleton] at hw
              subst hw
              unfold buildNextQuestion at hb
              by_cases hempty : (scoredSession s0 (input.answerIndex ==
                  current.correctIndex)).remainingIds.isEmpty = true
              · rw [if_pos hempty] at hb; simp at hb
              · rw [if_neg hempty] at hb
                cases hgen : env.gen with
                | error e => rw [hgen] at hb; simp at hb
                | ok question =>
                  rw [hgen] at hb
                  simp only [Option.some.injEq] at hb
                  rw [← hb]
                  exact hlen _ _

/-- Witness for C8 at a concrete short list and the concrete fact-quiz
invocation. -/
theorem claim_C8_recent_facts_bound_witness :
    appendRecentFact ["a"] "b" = ["a", "b"] ∧
    (∀ s' ∈ (factInvoke sampleFactEnv sampleFactInput).writes,
      s'.recentFacts.length ≤ 20) := by
  have h := claim_C8_recent_facts_bound
  exact ⟨(h.1 ["a"] "b").2.2 (by decide),
    h.2 sampleFactEnv sampleFactInput sampleFactSession rfl (by decide)⟩

/-! ## Callback metadata parser (metadata-serde.ts) -/

structure LevelMetadata where
  level : String
  mode : TrainingMode
deriving DecidableEq, Repr

/-- The character class `[a-z0-9]` of the level group. -/
def isLevelChar (c : Char) : Bool :=
  (97 ≤ c.toNat ∧ c.toNat ≤ 122) ∨ (48 ≤ c.toNat ∧ c.toNat ≤ 57)

/-- `MetadataSerDe.parseLevel`: the anchored regex
`level:([a-z0-9]+)(mode suffix)` from `metadata-serde.ts` as a parser.
The level group is the maximal nonempty `[a-z0-9]` run (it cannot
cross the `|` separator, so the greedy match needs no backtracking),
and the remainder must be exactly `|mode:ru-gr`, `|mode:gr-ru` or
`|mode:write` up to the end anchor. -/
def parseLevel (data : String) : Option LevelMetadata :=
  let chars := data.data
  if chars.take 6 = "level:".data then
    let rest := chars.drop 6
    let levelChars := rest.takeWhile isLevelChar
    let tail := rest.drop levelChars.length
    if levelChars.isEmpty then none
    else if tail = "|mode:ru-gr".data then
      some ⟨levelChars.asString, TrainingMode.RuGr⟩
    else if tail = "|mode:gr-ru".data then
      some ⟨levelChars.asString, TrainingMode.GrRu⟩
    else if tail = "|mode:write".data then
      some ⟨levelChars.asString, TrainingMode.Write⟩
    else none
  else none

/-- C9 (code bug): the level grammar of the spec carries an optional
`|category:<category>` segment and the repository's own unit test
expects `parseLevel` to return level, mode and category for
`level:a1|mode:ru-gr|category:verbs`, but the regex in
`metadata-serde.ts` has no category alternative: the category-carrying
string yields none, while the category-free shapes behave as
declared. -/
theorem claim_C9_parseLevel_category :
    parseLevel "level:a1|mode:ru-gr|category:verbs" = none ∧
    parseLevel "level:a2|mode:write" =
      some ⟨"a2", TrainingMode.Write⟩ ∧
    parseLevel "mode:ru-gr" = none := by
  refine ⟨?_, ?_, ?_⟩ <;> decide

/-! ## Untracked pending message id (C10) -/

theorem staleMessage_eq_true_iff (current : SessionQuestion) (mid : Nat) :
    staleMessage current mid = true ↔
      ∃ m, current.messageId = some m ∧ m ≠ mid := by
  unfold staleMessage
  cases h : current.messageId with
  | none => simp [h]
  | some m => simp [h, bne_iff_ne]

theorem buildNextQuestion_next_totalAsked (gen : Except String FactQuestion)
    (pick : Nat) (session : Session) (ns : Session)
    (h : (buildNextQuestion gen pick session).next = some ns) :
    ns.totalAsked = session.totalAsked := by
  unfold buildNextQuestion at h
  by_cases hempty : session.remainingIds.isEmpty = true
  · rw [if_pos hempty] at h
    simp at h
  · rw [if_neg hempty] at h
    cases gen with
    | error e => simp at h
    | ok q =>
      simp only [Option.some.injEq] at h
      rw [← h]

/-- C10: the question-no-longer-active notice fires exactly when a
tracked pending message id exists and differs from the inbound message
id, in both the choice and the fact-quiz variants; hence with an
untracked id (messageId none) any inbound message id is accepted and
the answer is scored (a session with totalAsked incremented is
written). -/
theorem claim_C10_untracked_message (cenv : ChoiceEnv)
    (cinput : ChoiceGameInput) (csession : Session)
    (ccurrent : SessionQuestion) (fenv : FactEnv)
    (finput : FactQuizGameInput) (fsession : Session)
    (fcurrent : SessionQuestion)
    (hcs : cenv.session = some csession)
    (hccur : csession.current = some ccurrent)
    (hfs : fenv.session = some fsession)
    (hfcur : fsession.current = some fcurrent) :
    ((Action.sendTgMessage (.renderInactiveQuestion cinput.chatId) ∈
        (choiceInvoke cenv cinput).actions) ↔
      ∃ m, ccurrent.messageId = some m ∧ m ≠ cinput.messageId) ∧
    (ccurrent.messageId = none →
      ∃ w, (choiceInvoke cenv cinput).writes = [w] ∧
        w.totalAsked = csession.totalAsked + 1) ∧
    ((Action.sendTgMessage (.renderInactiveQuestion finput.chatId) ∈
        (factInvoke fenv finput).actions) ↔
      ∃ m, fcurrent.messageId = some m ∧ m ≠ finput.messageId) ∧
    (fcurrent.messageId = none → buildQuestionText fcurrent ≠ "" →
      (fcurrent.answerOptions.getD []).length = 4 →
      finput.answerIndex < (fcurrent.answerOptions.getD []).length →
      ∃ w, (factInvoke fenv finput).writes = [w] ∧
        w.totalAsked = fsession.totalAsked + 1) := by
  refine ⟨?_, ?_, ?_, ?_⟩
  · constructor
    · intro hmem
      by_cases hst : staleMessage ccurrent cinput.messageId = true
      · exact (staleMessage_eq_true_iff _ _).mp hst
      · exfalso
        simp only [choiceInvoke, hcs, hccur] at hmem
        rw [if_neg hst] at hmem
        rcases hq : createQuestion cenv.terms.length cenv.pick cenv.s1
            cenv.s2 (scoredSession csession (cinput.answerIndex ==
              ccurrent.correctIndex)).remainingIds.toFinset with _ | pack
        · simp only [hq] at hmem
          simp [choiceResultActions, menuStart] at hmem
        · simp only [hq] at hmem
          simp [choiceResultActions, sendQuestion, choiceNextSession]
            at hmem
    · rintro ⟨m, hm, hne⟩
      have hst : staleMessage ccurrent cinput.messageId = true :=
        (staleMessage_eq_true_iff _ _).mpr ⟨m, hm, hne⟩
      simp [choiceInvoke, hcs, hccur, hst]
  · intro hm
    have hst : ¬staleMessage ccurrent cinput.messageId = true := by
      simp [staleMessage, hm]
    simp only [choiceInvoke, hcs, hccur]
    rw [if_neg hst]
    rcases hq : createQuestion cenv.terms.length cenv.pick cenv.s1 cenv.s2
        (scoredSession csession (cinput.answerIndex ==
          ccurrent.correctIndex)).remainingIds.toFinset with _ | pack
    · simp only [hq]
      exact ⟨_, rfl, rfl⟩
    · simp only [hq]
      exact ⟨_, rfl, rfl⟩
  · constructor
    · intro hmem
      by_cases hst : staleMessage fcurrent finput.messageId = true
      · exact (staleMessage_eq_true_iff _ _).mp hst
      · exfalso
        simp only [factInvoke, hfs, hfcur] at hmem
        rw [if_neg hst] at hmem
        by_cases hq : buildQuestionText fcurrent = "" ∨
            (fcurrent.answerOptions.getD []).length ≠ 4
        · rw [if_pos hq] at hmem
          simp at hmem
        rw [if_neg hq] at hmem
        by_cases hidx : (fcurrent.answerOptions.getD []).length ≤
            finput.answerIndex
        · rw [if_pos hidx] at hmem
          simp at hmem
        rw [if_neg hidx] at hmem
        rcases hb : (buildNextQuestion fenv.gen fenv.pick (scoredSession
            fsession (finput.answerIndex ==
              fcurrent.correctIndex))).next with _ | ns
        · simp only [hb] at hmem
          simp [factResultActions, menuStart] at hmem
        · simp only [hb] at hmem
          rcases hcur : ns.current with _ | nc
          · simp [factResultActions, sendFactQuestion, hcur] at hmem
          · simp only [factResultActions, sendFactQuestion, hcur]
              at hmem
            split_ifs at hmem <;> simp at hmem
    · rintro ⟨m, hm, hne⟩
      have hst : staleMessage fcurrent finput.messageId = true :=
        (staleMessage_eq_true_iff _ _).mpr ⟨m, hm, hne⟩
      simp [factInvoke, hfs, hfcur, hst]
  · intro hm hq4 hopts hidx
    have hst : ¬staleMessage fcurrent finput.messageId = true := by
      simp [staleMessage, hm]
    simp only [factInvoke, hfs, hfcur]
    rw [if_neg hst]
    rw [if_neg (by push_neg; exact ⟨hq4, by omega⟩)]
    rw [if_neg (by omega)]
    rcases hb : (buildNextQuestion fenv.gen fenv.pick (scoredSession
        fsession (finput.answerIndex ==
          fcurrent.correctIndex))).next with _ | ns
    · simp only [hb]
      exact ⟨_, rfl, rfl⟩
    · simp only [hb]
      refine ⟨ns, rfl, ?_⟩
      have := buildNextQuestion_next_totalAsked fenv.gen fenv.pick
        (scoredSession fsession (finput.answerIndex ==
          fcurrent.correctIndex)) ns hb
      simpa [scoredSession] using this

/-- Witness for C10: both sample sessions carry an untracked pending
message id, and both invocations score the answer. -/
theorem claim_C10_untracked_message_witness :
    (∃ w, (choiceInvoke sampleChoiceEnv sampleChoiceInput).writes = [w] ∧
      w.totalAsked = sampleSession.totalAsked + 1) ∧
    (∃ w, (factInvoke sampleFactEnv sampleFactInput).writes = [w] ∧
      w.totalAsked = sampleFactSession.totalAsked + 1) := by
  have h := claim_C10_untracked_message sampleChoiceEnv sampleChoiceInput
    sampleSession sampleQuestion sampleFactEnv sampleFactInput
    sampleFactSession sampleFactQuestionRow rfl rfl rfl rfl
  exact ⟨h.2.1 rfl, h.2.2.2 rfl (by decide) (by decide) (by decide)⟩

end GreekBot
